import Mathlib

/-!
Shallow embedding of the `learning-zenml` repository: three demonstration
scripts (`cache_pipeline.py`, `param_pipeline.py`, `meta_pipeline.py`) built
on an external pipeline-orchestration framework.  The step callables and
pipeline wiring are translated from the source files; the run engine,
cache store, parameter resolution and metadata store are not in the
repository (only their usage is), so they are modelled from the spec's
reconstructed core (sections 3 and 4 of the spec) and marked as such.

Python `float` literals occurring in the scripts (only `0.93`, which is
stored, logged and returned but never subjected to arithmetic) are modelled
as exact rationals.  `time.sleep` has no observable effect on values or
state and is not modelled.
-/

namespace ZenML

/-- Primitive values flowing through steps: the scripts use ints and one
float literal; strings appear as metadata keys/log text. -/
inductive Value where
  | vint (n : Int)
  | vfloat (q : ℚ)
  | vstr (s : String)
deriving DecidableEq, Repr

/-- Named parameter bindings, in declaration order. -/
abbrev Params := List (String × Value)

/-- First binding of a name in a parameter list. -/
def lookupParam (k : String) : Params → Option Value
  | [] => none
  | (k', v) :: rest => if k' = k then some v else lookupParam k rest

/-- Error taxonomy (spec section 7), restricted to the errors the claims
exercise. -/
inductive Err where
  | noActiveExecutionError
  | stepExecutionError (msg : String)
deriving DecidableEq, Repr

/-- Ambient execution context of the currently running step callable:
the log lines and metadata entries it has emitted so far. -/
structure ExecCtx where
  logs : List String
  metadata : List (String × Value)
deriving DecidableEq, Repr

def ExecCtx.empty : ExecCtx := ⟨[], []⟩

/-- The call `logger.info(msg)` inside a step callable: appends a log line to the
current execution context. -/
def logLine (ctx : ExecCtx) (msg : String) : ExecCtx :=
  { ctx with logs := ctx.logs ++ [msg] }

/-- Modelled from the spec: the Metadata Store contract `log_metadata`
(spec section 4.4), missing from src/ (the scripts only call it).  Callable
only from within an executing step's context; appends entries to the
currently executing step's record; fails with `NoActiveExecutionError`
outside any execution context. -/
def log_metadata (ctx : Option ExecCtx) (vals : List (String × Value)) :
    Except Err ExecCtx :=
  match ctx with
  | none => .error .noActiveExecutionError
  | some c => .ok { c with metadata := c.metadata ++ vals }

/-- Body of `slow_step` from `cache_pipeline.py`: logs, (sleeps), returns 42. -/
def slow_step_call (_ : Params) (ctx : ExecCtx) : Except Err (Value × ExecCtx) :=
  let ctx := logLine ctx "🔄 Actually computing result... (sleeping 3 seconds)"
  .ok (.vint 42, ctx)

/-- Body of `multiply` from `param_pipeline.py`: logs both lines and returns
`number * factor`.  Non-integer inputs are a type error of the callable. -/
def multiply_call (ps : Params) (ctx : ExecCtx) : Except Err (Value × ExecCtx) :=
  match lookupParam "number" ps, lookupParam "factor" ps with
  | some (.vint number), some (.vint factor) =>
    let ctx := logLine ctx s!"Multiplying {number} by {factor}"
    let result := number * factor
    let ctx := logLine ctx s!"Result: {result}"
    .ok (.vint result, ctx)
  | _, _ => .error (.stepExecutionError "TypeError")

/-- Body of `compute_accuracy` from `meta_pipeline.py`: logs, records the
metadata entry `accuracy = 0.93` through `log_metadata`, returns 0.93. -/
def compute_accuracy_call (_ : Params) (ctx : ExecCtx) :
    Except Err (Value × ExecCtx) := do
  let ctx := logLine ctx "Computing model accuracy"
  let acc : ℚ := 93/100
  let ctx := logLine ctx "Accuracy computed: 0.93"
  let ctx ← log_metadata (some ctx) [("accuracy", .vfloat acc)]
  let ctx := logLine ctx "Accuracy metadata logged to ZenML"
  .ok (.vfloat acc, ctx)

/-- Step Definition (spec section 3): name, step-level parameter defaults,
cacheability flag, callable. -/
structure StepDef where
  name : String
  defaults : Params
  cacheable : Bool
  call : Params → ExecCtx → Except Err (Value × ExecCtx)

/-- Step `slow_step` from `cache_pipeline.py`, declared `@step(enable_cache=True)`. -/
def slow_step : StepDef := ⟨"slow_step", [], true, slow_step_call⟩

/-- Step `multiply(number, factor=2)` from `param_pipeline.py`; steps are
cacheable by default. -/
def multiply : StepDef := ⟨"multiply", [("factor", .vint 2)], true, multiply_call⟩

/-- Step `compute_accuracy` from `meta_pipeline.py`. -/
def compute_accuracy : StepDef := ⟨"compute_accuracy", [], true, compute_accuracy_call⟩

/-- Modelled from the spec: cache key = deterministic serialization of
(step name, resolved input values); with the primitive inputs in scope the
pair itself is the canonical serialization (spec sections 3 and 4.3). -/
def cacheKey (stepName : String) (inputs : Params) : String × Params :=
  (stepName, inputs)

/-- Modelled from the spec: the Cache Entry store, keyed by
(step name, serialized inputs); persists across runs, no eviction. -/
abbrev Cache := List ((String × Params) × Value)

def emptyCache : Cache := []

def cacheLookup (c : Cache) (k : String × Params) : Option Value :=
  match c with
  | [] => none
  | (k', v) :: rest => if k' = k then some v else cacheLookup rest k

/-- Modelled from the spec: final parameter resolution — override params
take precedence over pipeline defaults over step defaults
(spec section 4.3, step 1). -/
def resolveParam (ov pd sd : Params) (k : String) : Option Value :=
  match lookupParam k ov with
  | some v => some v
  | none =>
    match lookupParam k pd with
    | some v => some v
    | none => lookupParam k sd

/-- Outcome of processing one step invocation (spec section 3; `failed`
per the failure semantics of spec section 4.3). -/
inductive Outcome where
  | computed
  | reused
  | failed
deriving DecidableEq, Repr

/-- Step Execution Record (spec section 3). -/
structure StepExecRecord where
  stepName : String
  inputs : Params
  key : String × Params
  outcome : Outcome
  output : Option Value
  logs : List String
  metadata : List (String × Value)
deriving DecidableEq, Repr

/-- One step invocation with its resolved input values (the observed
pipelines are straight-line, each step's inputs resolved up front). -/
structure Invocation where
  step : StepDef
  inputs : Params

/-- Modelled from the spec: the Run Engine's processing of one invocation
(spec section 4.3, step 2): on a cacheable hit, reuse with no side effects;
on a miss, execute the callable and store its value; if the callable
raises, mark the record failed and write no cache entry. -/
def runStep (c : Cache) (inv : Invocation) : StepExecRecord × Cache × Option Err :=
  let k := cacheKey inv.step.name inv.inputs
  match (if inv.step.cacheable then cacheLookup c k else none) with
  | some v => (⟨inv.step.name, inv.inputs, k, .reused, some v, [], []⟩, c, none)
  | none =>
    match inv.step.call inv.inputs ExecCtx.empty with
    | .ok (v, ctx) =>
      (⟨inv.step.name, inv.inputs, k, .computed, some v, ctx.logs, ctx.metadata⟩,
       if inv.step.cacheable then (k, v) :: c else c, none)
    | .error e => (⟨inv.step.name, inv.inputs, k, .failed, none, [], []⟩, c, some e)

/-- Result of one run: the step execution records, the cache after the
run, and the failure that aborted the run, if any. -/
structure RunResult where
  records : List StepExecRecord
  cache : Cache
  failure : Option Err
deriving Repr

/-- The value a run hands back to its caller: the propagated failure, or
the terminal invocation's output. -/
def RunResult.result (r : RunResult) : Except Err (Option Value) :=
  match r.failure with
  | some e => .error e
  | none => .ok (r.records.getLast?.bind fun r0 => r0.output)

/-- Modelled from the spec: the Run Engine's main loop (spec section 4.3):
process invocations in order, fail fast on a step failure (remaining steps
aborted, error propagated). -/
def runSteps (c : Cache) : List Invocation → RunResult
  | [] => ⟨[], c, none⟩
  | inv :: rest =>
    match runStep c inv with
    | (r0, c1, some e) => ⟨[r0], c1, some e⟩
    | (r0, c1, none) =>
      let r := runSteps c1 rest
      ⟨r0 :: r.records, r.cache, r.failure⟩

/-- Pipeline `cache_pipeline` from `cache_pipeline.py`: a single invocation of
`slow_step`. -/
def cache_pipeline (c : Cache) : RunResult :=
  runSteps c [⟨slow_step, []⟩]

/-- Pipeline-level parameter defaults of `param_pipeline(number=3, factor=2)`. -/
def param_pipeline_defaults : Params := [("number", .vint 3), ("factor", .vint 2)]

/-- Inputs bound to the `multiply` invocation inside `param_pipeline`:
both parameters resolved by the precedence chain
caller overrides → pipeline defaults → step defaults. -/
def param_pipeline_inputs (ov : Params) : Params :=
  [("number", (resolveParam ov param_pipeline_defaults multiply.defaults "number").getD (.vint 0)),
   ("factor", (resolveParam ov param_pipeline_defaults multiply.defaults "factor").getD (.vint 0))]

/-- Pipeline `param_pipeline` from `param_pipeline.py`: one invocation of `multiply`
with the resolved inputs; the pipeline returns the step's product. -/
def param_pipeline (ov : Params) (c : Cache) : RunResult :=
  runSteps c [⟨multiply, param_pipeline_inputs ov⟩]

/-- Pipeline `meta_pipeline` from `meta_pipeline.py`: one invocation of
`compute_accuracy`; the pipeline returns the accuracy. -/
def meta_pipeline (c : Cache) : RunResult :=
  runSteps c [⟨compute_accuracy, []⟩]

/-- The caller's overrides in `param_pipeline.py`'s entry point:
`param_pipeline(number=5, factor=10)`. -/
def mainOverrides : Params := [("number", .vint 5), ("factor", .vint 10)]

end ZenML

namespace ZenML

/-! ## Helper lemmas about the cache and the engine loop -/

theorem cacheLookup_insert (c : Cache) (k : String × Params) (v : Value) :
    cacheLookup ((k, v) :: c) k = some v := by
  simp [cacheLookup]

/-- Re-running a single-invocation pipeline on the cache its first run
produced hands back the same result as the first run. -/
theorem runSteps_single_again (c : Cache) (inv : Invocation) :
    (runSteps (runSteps c [inv]).cache [inv]).result = (runSteps c [inv]).result := by
  cases hb : inv.step.cacheable with
  | true =>
    cases hl : cacheLookup c (cacheKey inv.step.name inv.inputs) with
    | some v => simp [runSteps, runStep, hb, hl, RunResult.result]
    | none =>
      cases hc : inv.step.call inv.inputs ExecCtx.empty with
      | ok pr =>
        obtain ⟨v, ctx⟩ := pr
        simp [runSteps, runStep, hb, hl, hc, cacheLookup, RunResult.result]
      | error e => simp [runSteps, runStep, hb, hl, hc, RunResult.result]
  | false =>
    cases hc : inv.step.call inv.inputs ExecCtx.empty with
    | ok pr =>
      obtain ⟨v, ctx⟩ := pr
      simp [runSteps, runStep, hb, hc, RunResult.result]
    | error e => simp [runSteps, runStep, hb, hc, RunResult.result]

/-- Processing `xs ++ ys` from an initial cache splits at the seam when no
step of `xs` fails. -/
theorem runSteps_append (xs ys : List Invocation) (c : Cache)
    (h : (runSteps c xs).failure = none) :
    runSteps c (xs ++ ys)
      = ⟨(runSteps c xs).records ++ (runSteps (runSteps c xs).cache ys).records,
         (runSteps (runSteps c xs).cache ys).cache,
         (runSteps (runSteps c xs).cache ys).failure⟩ := by
  induction xs generalizing c with
  | nil => simp [runSteps]
  | cons inv xs ih =>
    cases hs : runStep c inv with
    | mk r0 p =>
      obtain ⟨c1, err⟩ := p
      cases err with
      | some e => simp [runSteps, hs] at h
      | none =>
        have h1 : (runSteps c1 xs).failure = none := by
          simpa [runSteps, hs] using h
        simp [runSteps, hs, ih c1 h1]

/-- The record the engine writes for an invocation whose callable raised. -/
def failedRecord (inv : Invocation) : StepExecRecord :=
  ⟨inv.step.name, inv.inputs, cacheKey inv.step.name inv.inputs, .failed, none, [], []⟩

/-- A run whose first invocation misses the cache and whose callable raises
aborts at once: one failed record, cache untouched, error surfaced. -/
theorem runSteps_fail_head (bad : Invocation) (rest : List Invocation) (c : Cache)
    (e : Err)
    (hmiss : cacheLookup c (cacheKey bad.step.name bad.inputs) = none)
    (hfail : bad.step.call bad.inputs ExecCtx.empty = .error e) :
    runSteps c (bad :: rest) = ⟨[failedRecord bad], c, some e⟩ := by
  have hif : (if bad.step.cacheable then
      cacheLookup c (cacheKey bad.step.name bad.inputs) else none) = none := by
    cases bad.step.cacheable <;> simp [hmiss]
  simp [runSteps, runStep, hif, hfail, failedRecord]

end ZenML

namespace ZenML

/-! ## Claim theorems -/

/-- C1: for the single-step `cache_pipeline` (its `slow_step` declared with
`enable_cache=True`), the first invocation on a cold cache has outcome
`computed` and output 42, and the second invocation — run against the cache
the first one persisted — has outcome `reused` and output 42. -/
theorem cache_pipeline_cold_then_warm :
    ((cache_pipeline emptyCache).records.map fun r => r.outcome) = [.computed] ∧
    (cache_pipeline emptyCache).result = .ok (some (.vint 42)) ∧
    ((cache_pipeline (cache_pipeline emptyCache).cache).records.map
        fun r => r.outcome) = [.reused] ∧
    (cache_pipeline (cache_pipeline emptyCache).cache).result
      = .ok (some (.vint 42)) :=
  ⟨rfl, rfl, rfl, rfl⟩

/-- C2: `param_pipeline` invoked with the overrides `number=5, factor=10`
returns 50, and invoked with no overrides returns 6, the product of its
defaults `number=3, factor=2`. -/
theorem param_pipeline_values :
    (param_pipeline mainOverrides emptyCache).result = .ok (some (.vint 50)) ∧
    (param_pipeline [] emptyCache).result = .ok (some (.vint 6)) :=
  ⟨rfl, rfl⟩

/-- C3: for all inputs `(x, f)`, invoking the `multiply` step twice with
identical inputs on a cold cache computes on the first call and reuses on
the second; the cache hit produces none of the callable's log or metadata
side effects, so each of the step's log lines is observed exactly once
across the two calls. -/
theorem multiply_cached_once (x f : Int) :
    (runStep emptyCache ⟨multiply, [("number", .vint x), ("factor", .vint f)]⟩).1.outcome
      = .computed ∧
    (runStep (runStep emptyCache ⟨multiply, [("number", .vint x), ("factor", .vint f)]⟩).2.1
       ⟨multiply, [("number", .vint x), ("factor", .vint f)]⟩).1.outcome = .reused ∧
    (runStep (runStep emptyCache ⟨multiply, [("number", .vint x), ("factor", .vint f)]⟩).2.1
       ⟨multiply, [("number", .vint x), ("factor", .vint f)]⟩).1.logs = [] ∧
    (runStep (runStep emptyCache ⟨multiply, [("number", .vint x), ("factor", .vint f)]⟩).2.1
       ⟨multiply, [("number", .vint x), ("factor", .vint f)]⟩).1.metadata = [] ∧
    (runStep emptyCache ⟨multiply, [("number", .vint x), ("factor", .vint f)]⟩).1.logs ++
    (runStep (runStep emptyCache ⟨multiply, [("number", .vint x), ("factor", .vint f)]⟩).2.1
       ⟨multiply, [("number", .vint x), ("factor", .vint f)]⟩).1.logs
      = [s!"Multiplying {x} by {f}", s!"Result: {x * f}"] := by
  simp [runStep, multiply, multiply_call, cacheLookup, cacheKey, lookupParam,
        emptyCache, logLine, ExecCtx.empty]

/-- C4: cache keys of two invocations of the same step that differ in at
least one resolved input value differ, and concretely changing `factor`
from 2 to 10 makes the second `multiply` invocation a cache miss
(outcome `computed`, not `reused`). -/
theorem cache_key_differs_on_input_change :
    (∀ name i1 i2, i1 ≠ i2 → cacheKey name i1 ≠ cacheKey name i2) ∧
    (runStep (runStep emptyCache
        ⟨multiply, [("number", .vint 3), ("factor", .vint 2)]⟩).2.1
       ⟨multiply, [("number", .vint 3), ("factor", .vint 10)]⟩).1.outcome
      = .computed := by
  constructor
  · intro name i1 i2 h hk
    exact h (congrArg Prod.snd hk)
  · rfl

/-- Witness for C4 at the concrete inputs of the spec's example. -/
theorem cache_key_differs_on_input_change_witness :
    cacheKey "multiply" [("number", Value.vint 3), ("factor", Value.vint 2)]
      ≠ cacheKey "multiply" [("number", Value.vint 3), ("factor", Value.vint 10)] :=
  cache_key_differs_on_input_change.1 _ _ _ (by decide)

/-- C5: resolved parameter values obey the precedence chain
overrides → pipeline defaults → step defaults; in particular the caller's
`number=5, factor=10` override both `param_pipeline`'s defaults
`number=3, factor=2` and `multiply`'s step default `factor=2`. -/
theorem param_resolution_precedence :
    (∀ ov pd sd k v, lookupParam k ov = some v → resolveParam ov pd sd k = some v) ∧
    (∀ ov pd sd k v, lookupParam k ov = none → lookupParam k pd = some v →
        resolveParam ov pd sd k = some v) ∧
    (∀ ov pd sd k, lookupParam k ov = none → lookupParam k pd = none →
        resolveParam ov pd sd k = lookupParam k sd) ∧
    resolveParam mainOverrides param_pipeline_defaults multiply.defaults "number"
      = some (.vint 5) ∧
    resolveParam mainOverrides param_pipeline_defaults multiply.defaults "factor"
      = some (.vint 10) := by
  refine ⟨?_, ?_, ?_, rfl, rfl⟩
  · intro ov pd sd k v h
    simp [resolveParam, h]
  · intro ov pd sd k v h1 h2
    simp [resolveParam, h1, h2]
  · intro ov pd sd k h1 h2
    simp [resolveParam, h1, h2]

/-- Witness for C5: the override chain applied at the caller's `number`. -/
theorem param_resolution_precedence_witness :
    resolveParam mainOverrides param_pipeline_defaults multiply.defaults "number"
      = some (Value.vint 5) :=
  param_resolution_precedence.1 mainOverrides param_pipeline_defaults
    multiply.defaults "number" (Value.vint 5) rfl

end ZenML

namespace ZenML

/-- C6: if a step callable raises (here: its invocation misses the cache
and its call errors), the engine marks that invocation's record `failed`,
writes no cache entry for it, propagates the failure to the caller of the
run, aborts all remaining steps, and leaves every cache entry written
before the failure unchanged. -/
theorem step_failure_semantics (pre : List Invocation) (bad : Invocation)
    (rest : List Invocation) (c : Cache) (e : Err)
    (hok : (runSteps c pre).failure = none)
    (hmiss : cacheLookup (runSteps c pre).cache
        (cacheKey bad.step.name bad.inputs) = none)
    (hfail : bad.step.call bad.inputs ExecCtx.empty = .error e) :
    (runSteps c (pre ++ bad :: rest)).result = .error e ∧
    (runSteps c (pre ++ bad :: rest)).records
      = (runSteps c pre).records ++ [failedRecord bad] ∧
    (failedRecord bad).outcome = .failed ∧
    (runSteps c (pre ++ bad :: rest)).cache = (runSteps c pre).cache := by
  have happ := runSteps_append pre (bad :: rest) c hok
  have hh := runSteps_fail_head bad rest (runSteps c pre).cache e hmiss hfail
  rw [happ, hh]
  exact ⟨rfl, rfl, rfl, rfl⟩

/-- A step whose callable always raises; no such step exists in the
repository, so one is introduced to exercise the failure semantics. -/
def boom_step : StepDef :=
  ⟨"boom_step", [], true, fun _ _ => .error (.stepExecutionError "boom")⟩

/-- The successful prefix used to witness the failure semantics: the
`multiply` invocation of `param_pipeline(number=5, factor=10)`. -/
def demo_pre : List Invocation :=
  [⟨multiply, [("number", .vint 5), ("factor", .vint 10)]⟩]

/-- The steps that should be aborted after the failure. -/
def demo_rest : List Invocation := [⟨slow_step, []⟩]

/-- Witness for C6: a concrete run in which the second step fails. -/
theorem step_failure_semantics_witness :
    (runSteps emptyCache (demo_pre ++ ⟨boom_step, []⟩ :: demo_rest)).result
      = .error (.stepExecutionError "boom") ∧
    (runSteps emptyCache (demo_pre ++ ⟨boom_step, []⟩ :: demo_rest)).records
      = (runSteps emptyCache demo_pre).records ++ [failedRecord ⟨boom_step, []⟩] ∧
    (failedRecord ⟨boom_step, []⟩).outcome = .failed ∧
    (runSteps emptyCache (demo_pre ++ ⟨boom_step, []⟩ :: demo_rest)).cache
      = (runSteps emptyCache demo_pre).cache :=
  step_failure_semantics demo_pre ⟨boom_step, []⟩ demo_rest emptyCache
    (.stepExecutionError "boom") rfl rfl rfl

/-- C7: `log_metadata` appends its entries only to the currently executing
step's record — in a two-step run the entry logged by `compute_accuracy`
lands in its record and not in `slow_step`'s — the entries are retrievable
from the run's records after it completes, and calling `log_metadata`
outside any step execution context fails with `NoActiveExecutionError`. -/
theorem log_metadata_contract :
    (∀ vals, log_metadata none vals = .error .noActiveExecutionError) ∧
    ((meta_pipeline emptyCache).records.map fun r => r.metadata)
      = [[("accuracy", .vfloat (93/100))]] ∧
    ((runSteps emptyCache [⟨compute_accuracy, []⟩, ⟨slow_step, []⟩]).records.map
        fun r => r.metadata)
      = [[("accuracy", .vfloat (93/100))], []] :=
  ⟨fun _ => rfl, rfl, rfl⟩

/-- The entry-point fallback shared by all three scripts: when importing
the dashboard-reporter utility fails, `log_dashboard_urls` is the lambda
printing a fixed completion message; the reporter is modelled as `none`
when unavailable. -/
def log_dashboard_urls (reporter : Option (String → String)) (name : String) :
    String :=
  match reporter with
  | some f => f name
  | none => s!"📊 Pipeline \x27{name}\x27 completed!"

/-- The tail of each script's entry point: run the pipeline, then make the
best-effort dashboard call. -/
def script_main (pipe : Cache → RunResult) (reporter : Option (String → String))
    (name : String) : RunResult × String :=
  (pipe emptyCache, log_dashboard_urls reporter name)

/-- C8: for every pipeline name, when the dashboard reporter is unavailable
`log_dashboard_urls` falls back to the fixed completion message, and the
run's outcome is the same whatever the reporter does. -/
theorem dashboard_fallback_and_run_independence :
    (∀ name, log_dashboard_urls none name
        = "📊 Pipeline \x27" ++ name ++ "\x27 completed!") ∧
    (∀ pipe name rep1 rep2,
        (script_main pipe rep1 name).1 = (script_main pipe rep2 name).1) :=
  ⟨fun _ => rfl, fun _ _ _ _ => rfl⟩

/-- C9: each step callable's returned value is a function of its resolved
inputs alone (the ambient execution context does not influence it), and
re-running each pipeline on the cache its first run persisted — i.e.
reusing the cached result — hands back the same value as the computing
run did. -/
theorem steps_deterministic_reuse_consistent :
    (∀ ps c c', (slow_step_call ps c).map Prod.fst
        = (slow_step_call ps c').map Prod.fst) ∧
    (∀ ps c c', (multiply_call ps c).map Prod.fst
        = (multiply_call ps c').map Prod.fst) ∧
    (∀ ps c c', (compute_accuracy_call ps c).map Prod.fst
        = (compute_accuracy_call ps c').map Prod.fst) ∧
    (∀ ov, (param_pipeline ov (param_pipeline ov emptyCache).cache).result
        = (param_pipeline ov emptyCache).result) ∧
    (cache_pipeline (cache_pipeline emptyCache).cache).result
      = (cache_pipeline emptyCache).result ∧
    (meta_pipeline (meta_pipeline emptyCache).cache).result
      = (meta_pipeline emptyCache).result := by
  refine ⟨fun _ _ _ => rfl, ?_, fun _ _ _ => rfl,
          fun ov => runSteps_single_again emptyCache _, rfl, rfl⟩
  intro ps c c'
  unfold multiply_call
  cases lookupParam "number" ps with
  | none => rfl
  | some v =>
    cases v with
    | vint n =>
      cases lookupParam "factor" ps with
      | none => rfl
      | some w => cases w <;> rfl
    | vfloat q =>
      cases lookupParam "factor" ps with
      | none => rfl
      | some w => cases w <;> rfl
    | vstr s =>
      cases lookupParam "factor" ps with
      | none => rfl
      | some w => cases w <;> rfl

/-- C10: `meta_pipeline` returns exactly 0.93 — on a cold cache and again
on the cache that run persisted — and the single metadata entry logged by
`compute_accuracy` is `accuracy = 0.93`, equal to the step's output. -/
theorem meta_pipeline_accuracy :
    (meta_pipeline emptyCache).result = .ok (some (.vfloat (93/100))) ∧
    (meta_pipeline (meta_pipeline emptyCache).cache).result
      = .ok (some (.vfloat (93/100))) ∧
    ((meta_pipeline emptyCache).records.map fun r => r.metadata)
      = [[("accuracy", .vfloat (93/100))]] ∧
    ((meta_pipeline emptyCache).records.map fun r => r.output)
      = [some (.vfloat (93/100))] :=
  ⟨rfl, rfl, rfl, rfl⟩

end ZenML
